import Mathlib

/-!
# Vision Core: shallow embedding and verification

A shallow embedding of the Python repository vision_core (FastAPI backend
that schedules detection agents over camera streams) together with proofs
about its behaviour.

Embedding conventions:
* MongoDB documents become Lean structures whose fields are Option-valued
  where the Python code reads them with dict.get.
* datetimes are modelled as Nat instants; comparison on datetimes in the
  source is comparison on these instants.
* asyncio queues become lists (front = oldest element) together with their
  configured maxsize; following asyncio, a queue with maxsize 0 is never
  full, and a torn-down queue whose operations raise is modelled by a
  broken flag.
* code that can raise an uncaught exception returns Except String.
-/

namespace VisionCore

/-! ## Rule engine data (src/app/models.py) -/

/-- AgentRule from src/app/models.py: type, target_class (JSON key class),
label, optional min_count, optional action. -/
structure AgentRule where
  type : String
  target_class : String
  label : String
  min_count : Option Int
  action : Option String
deriving DecidableEq, Repr

/-- A detection dict produced by the detector. The code only ever reads the
class_name key (absent modelled as none); payload keeps detections apart. -/
structure Detection where
  class_name : Option String
  payload : Nat
deriving DecidableEq, Repr

/-! ## Rules (src/app/rule_engine/rule.py) -/

/-- class_presence from src/app/rule_engine/rule.py lines 15-49: filter the
detections to those whose class_name equals the target class; matched iff
at least one remains. -/
def class_presence (rule : AgentRule) (detections : List Detection) :
    Bool × List Detection :=
  let filtered := detections.filter (fun d => decide (d.class_name = some rule.target_class))
  (decide (0 < filtered.length), filtered)

/-- class_count from src/app/rule_engine/rule.py lines 52-97: same filter;
the threshold is rule.min_count or 1, where the Python or-expression
replaces only the falsy values None and 0 by 1 (a negative min_count is
kept as is); matched iff the filtered count reaches the threshold. -/
def class_count (rule : AgentRule) (detections : List Detection) :
    Bool × List Detection :=
  let filtered := detections.filter (fun d => decide (d.class_name = some rule.target_class))
  let count : Int := filtered.length
  let min_count : Int :=
    match rule.min_count with
    | none => 1
    | some m => if m = 0 then 1 else m
  (decide (min_count ≤ count), filtered)

/-! ## Rule dispatch (src/app/rule_engine/engine.py) -/

/-- What getattr(rules_module, name, None) can resolve a name to on the
module src/app/rule_engine/rule.py: one of the two handler functions, or
some attribute that is not a rule handler. Invoking a non-handler
attribute as handler(rule, detections) raises out of the call: the typing
imports and the AgentRule class reject instantiation, the module dict
dunders are not callable, and the method attributes inherited from the
module type reject the argument pair (a TypeError either at the call or,
for an attribute returning a non-pair, at the unpacking on the same
line). -/
inductive RuleAttr
  | presence
  | count
  | nonHandler
deriving DecidableEq, Repr

/-- Whether a name has the dunder shape, a double underscore at both
ends. Every attribute that getattr can find on the module object, apart
from the seven top-level bindings of rule.py, has such a name: the dunder
entries of the module dict (among them __name__, __doc__, __package__,
__loader__, __spec__, __file__, __cached__, __builtins__) and the
attributes inherited from the module type (among them __class__, __dir__,
__eq__, __getattribute__, __init__, __repr__, __setattr__). -/
def isDunderName (s : String) : Bool :=
  (['_', '_'].isPrefixOf s.data) && (['_', '_'].isSuffixOf s.data)

/-- Attribute lookup on the rules module, as getattr sees it: the two
handler functions and the five non-handler top-level bindings of rule.py
by name; beyond those, every getattr-visible attribute of the module
object has a dunder-shaped name, so all dunder-shaped names are classified
as resolving to a non-handler attribute (for a dunder-shaped name that
happens not to exist this errs on the side of raising; no theorem below
relies on such a name being skipped). Any remaining name is certainly not
an attribute: getattr returns None. -/
def rulesModuleAttr : String → Option RuleAttr
  | "class_presence" => some .presence
  | "class_count" => some .count
  | "Any" | "Dict" | "List" | "Tuple" | "AgentRule" => some .nonHandler
  | s => if isDunderName s then some .nonHandler else none

/-- AgentRuntime from src/app/rule_engine/engine.py lines 20-34. The YOLO
model handle is represented by the model_id it was loaded from (the cache
in load_model.py is keyed by it). agent_id is Option because the doc field
is read with get and is stored unchecked. -/
structure AgentRuntime where
  agent_id : Option String
  camera_id : String
  model : String
  rules : List AgentRule
  fps : Int
deriving DecidableEq, Repr

/-- Inner loop of run_rules_for_agent (engine.py lines 77-98), with the
accumulators any_match and kept made explicit. A rule.type that getattr
resolves to nothing is skipped with a printed diagnostic; a rule.type that
resolves to a non-handler module attribute is called, which raises a
TypeError out of the function (nothing catches it). -/
def runRulesGo (dets : List Detection) :
    List AgentRule → Bool → List Detection → Except String (Bool × List Detection)
  | [], any_match, kept => .ok (any_match, kept)
  | r :: rest, any_match, kept =>
    match rulesModuleAttr r.type with
    | none => runRulesGo dets rest any_match kept
    | some .nonHandler => .error "TypeError: module attribute is not a rule handler"
    | some .presence =>
      let res := class_presence r dets
      if res.1 then runRulesGo dets rest true (kept ++ res.2)
      else runRulesGo dets rest any_match kept
    | some .count =>
      let res := class_count r dets
      if res.1 then runRulesGo dets rest true (kept ++ res.2)
      else runRulesGo dets rest any_match kept

/-- run_rules_for_agent from src/app/rule_engine/engine.py lines 67-98. -/
def run_rules_for_agent (runtime : AgentRuntime) (detections : List Detection) :
    Except String (Bool × List Detection) :=
  runRulesGo detections runtime.rules false []

/-- The handler result for one rule, when its type resolves to an actual
handler function. -/
def ruleHandlerResult (r : AgentRule) (dets : List Detection) :
    Option (Bool × List Detection) :=
  match rulesModuleAttr r.type with
  | some .presence => some (class_presence r dets)
  | some .count => some (class_count r dets)
  | _ => none

/-- Whether one rule matches (false for an unrecognized rule type). -/
def ruleMatched (r : AgentRule) (dets : List Detection) : Bool :=
  match ruleHandlerResult r dets with
  | some res => res.1
  | none => false

/-- The evidence one rule contributes to kept: its filtered detections when
it matched, nothing otherwise. -/
def ruleKept (r : AgentRule) (dets : List Detection) : List Detection :=
  match ruleHandlerResult r dets with
  | some res => if res.1 then res.2 else []
  | none => []

/-- Concatenation, in rule declaration order, of the evidence of the
matched rules. -/
def keptAll (rules : List AgentRule) (dets : List Detection) : List Detection :=
  rules.foldr (fun r acc => ruleKept r dets ++ acc) []

/-! ## Agent documents and the scheduler (src/app/agent_scheduler.py) -/

/-- A persisted agent document as the scheduler and the runtime builder
read it: every field is fetched with dict.get, so each is Option-valued
(a datetime is always truthy in Python, hence missing means the field is
absent or null). The rules field is kept as already-parsed AgentRule
records, mirroring AgentRule.parse_obj in engine.py. -/
structure AgentDoc where
  agent_id : Option String
  camera_id : Option String
  model_ids : Option (List String)
  run_mode : Option String
  status : Option String
  rules : List AgentRule
  fps : Option Int
  start_at : Option Nat
  end_at : Option Nat
deriving DecidableEq, Repr

/-- The status decision of _agent_status_loop, src/app/agent_scheduler.py
lines 60-69: pending before start_at, running inside the window,
terminated from end_at on. run_mode is not consulted anywhere in the
loop. -/
def computeNewStatus (now start_at end_at : Nat) : String :=
  if now < start_at then "pending"
  else if start_at ≤ now ∧ now < end_at then "running"
  else "terminated"

/-- The per-document body of the sweep, src/app/agent_scheduler.py lines
50-77: a document missing start_at or end_at is skipped; otherwise the new
status is computed and persisted only when it differs from the stored one
(stored status defaults to pending when absent). -/
def sweepDoc (now : Nat) (d : AgentDoc) : AgentDoc :=
  match d.start_at, d.end_at with
  | some s, some e =>
    let current := d.status.getD "pending"
    let new_status := computeNewStatus now s e
    if new_status ≠ current then { d with status := some new_status } else d
  | _, _ => d

/-- One sweep of _agent_status_loop over the whole collection: the Mongo
query status ne terminated selects the documents the loop visits (a
missing status field also matches ne), every other document is left
untouched. -/
def sweep (now : Nat) (coll : List AgentDoc) : List AgentDoc :=
  coll.map (fun d => if d.status = some "terminated" then d else sweepDoc now d)

/-- Modelled from the spec: the pure status function of section 4.2 of the
specification, including its continuous branch, written for comparison
with the status the code computes. -/
def specStatus (run_mode : String) (now start_at end_at : Nat) : String :=
  if run_mode = "continuous" then "running"
  else if now < start_at then "pending"
  else if start_at ≤ now ∧ now < end_at then "running"
  else "terminated"

/-! ## Runtime construction (src/app/rule_engine/engine.py lines 36-64) -/

/-- The Mongo query of build_agent_runtimes_for_camera: documents of this
camera whose stored status is running. -/
def queryRunning (coll : List AgentDoc) (camera_id : String) : List AgentDoc :=
  coll.filter (fun d => decide (d.camera_id = some camera_id ∧ d.status = some "running"))

/-- The loop body of build_agent_runtimes_for_camera for one document:
a document whose model_ids is absent or empty is skipped (a bare continue,
no diagnostic); otherwise a runtime is built from the first model id, the
parsed rules, fps defaulting to 5, and the agent_id as stored, even when
that id is absent. -/
def mkRuntimeForCamera (camera_id : String) (doc : AgentDoc) : Option AgentRuntime :=
  match doc.model_ids.getD [] with
  | [] => none
  | model_id :: _ =>
    some { agent_id := doc.agent_id, camera_id := camera_id, model := model_id,
           rules := doc.rules, fps := doc.fps.getD 5 }

/-- build_agent_runtimes_for_camera from src/app/rule_engine/engine.py
lines 36-64. -/
def build_agent_runtimes_for_camera (coll : List AgentDoc) (camera_id : String) :
    List AgentRuntime :=
  (queryRunning coll camera_id).filterMap (mkRuntimeForCamera camera_id)

/-! ## Frame hub (src/app/shared_hub/hub.py) -/

/-- A subscriber queue: an asyncio.Queue of frames with its configured
maxsize. Front of the list is the oldest entry. broken models a torn-down
queue whose operations raise, the situation the except branch of publish
is there for. -/
structure SubQueue (F : Type) where
  items : List F
  maxsize : Nat
  broken : Bool
deriving DecidableEq, Repr

/-- asyncio.Queue.full: never full when maxsize is 0, otherwise full when
the current size has reached maxsize. -/
def SubQueue.isFull {F : Type} (q : SubQueue F) : Bool :=
  decide (q.maxsize ≠ 0 ∧ q.maxsize ≤ q.items.length)

/-- The per-queue step of CameraChannel.publish, hub.py lines 36-41: when
the queue is full its oldest entry is taken out first (a QueueEmpty from
get_nowait is swallowed), then the frame is enqueued. -/
def publishToQueue {F : Type} (f : F) (q : SubQueue F) : SubQueue F :=
  let items := if q.isFull then q.items.drop 1 else q.items
  { q with items := items ++ [f] }

/-- CameraChannel from src/app/shared_hub/hub.py (the last_ts wall-clock
field is not modelled). -/
structure CameraChannel (F : Type) where
  camera_id : String
  last_frame : Option F
  subscribers : List (SubQueue F)
  max_sub_queue : Nat
deriving DecidableEq, Repr

/-- A fresh channel as CameraChannel.init builds it. -/
def CameraChannel.init (F : Type) (camera_id : String) (max_sub_queue : Nat) :
    CameraChannel F :=
  { camera_id := camera_id, last_frame := none, subscribers := [], max_sub_queue := max_sub_queue }

/-- The default bound of a subscriber queue (hub.py line 15). -/
def defaultMaxSubQueue : Nat := 3

/-- CameraChannel.publish, hub.py lines 22-50: store the frame as latest;
enqueue it into every subscriber queue, evicting the oldest entry of a
full queue first; a queue whose operations raise is collected and removed
afterwards, and the remaining subscribers are updated in order. The
function never blocks and never raises. -/
def CameraChannel.publish {F : Type} (ch : CameraChannel F) (f : F) : CameraChannel F :=
  { ch with
    last_frame := some f,
    subscribers := (ch.subscribers.filter (fun q => !q.broken)).map (publishToQueue f) }

/-- CameraChannel.subscribe, hub.py lines 52-64: append a fresh bounded
queue and seed it with the latest frame when one exists (a QueueFull on
the seed is swallowed). Returns the new channel and the created queue. -/
def CameraChannel.subscribe {F : Type} (ch : CameraChannel F) :
    CameraChannel F × SubQueue F :=
  let q0 : SubQueue F := { items := [], maxsize := ch.max_sub_queue, broken := false }
  let q := match ch.last_frame with
    | none => q0
    | some f => if q0.isFull then q0 else { q0 with items := q0.items ++ [f] }
  ({ ch with subscribers := ch.subscribers ++ [q] }, q)

/-- The operations a client can perform on one channel. -/
inductive HubOp (F : Type)
  | publish (f : F)
  | subscribe
deriving DecidableEq, Repr

/-- Apply one operation to a channel. -/
def applyOp {F : Type} (ch : CameraChannel F) : HubOp F → CameraChannel F
  | .publish f => ch.publish f
  | .subscribe => ch.subscribe.1

/-- Apply a sequence of operations to a channel. -/
def applyOps {F : Type} (ch : CameraChannel F) (ops : List (HubOp F)) : CameraChannel F :=
  ops.foldl applyOp ch

/-! ## Signaling relay (src/app/signaling_server/signaling_server.py) -/

/-- Python str.startswith, written over the character list of the string
so that it computes by kernel reduction. -/
def pyStartsWith (s p : String) : Bool := p.data.isPrefixOf s.data

/-- ClientState from signaling_server.py lines 28-35 (the socket handle
and subscription set are not needed by any claim). -/
structure ClientState where
  client_id : String
  is_camera : Bool
  last_offer : Option String
  last_answer : Option String
deriving DecidableEq, Repr

/-- A fresh ClientState: the role is derived from the start of the id
(client_id.startswith applied to the string camera). -/
def ClientState.init (client_id : String) : ClientState :=
  { client_id := client_id, is_camera := pyStartsWith client_id "camera",
    last_offer := none, last_answer := none }

/-- The global clients dict, as an association list in insertion order. -/
abbrev SigState : Type := List (String × ClientState)

/-- Dict lookup. -/
def lookupClient (st : SigState) (cid : String) : Option ClientState :=
  ((st.find? (fun p => decide (p.1 = cid)))).map Prod.snd

/-- Dict assignment: replace in place when the key exists (Python dicts
keep the original position), append otherwise. -/
def insertClient (st : SigState) (cid : String) (c : ClientState) : SigState :=
  if (st.find? (fun p => decide (p.1 = cid))).isSome then
    st.map (fun p => if p.1 = cid then (cid, c) else p)
  else
    st ++ [(cid, c)]

/-- A parsed signaling JSON message: the fields the server reads. A
verbatim forward is modelled as sending the same Msg value. -/
structure Msg where
  type : Option String
  fromId : Option String
  toId : Option String
  sdp : Option String
deriving DecidableEq, Repr

/-- The broadcast arm of the offer handler, signaling_server.py lines
100-108: send the raw message to every connected client that is not a
camera, in dict order. -/
def broadcastViewers (st : SigState) (msg : Msg) : List (String × Msg) :=
  (st.filter (fun p => !p.2.is_camera)).map (fun p => (p.1, msg))

/-- The offer arm of the message loop, signaling_server.py lines 86-108,
for a connected sender: a camera-role sender first has the sdp stored as
its last_offer; then, when the target field is present, non-empty and
currently connected, the message is forwarded verbatim to it alone,
otherwise it is broadcast verbatim to every connected viewer. A
an offer from a viewer-role sender does nothing. Returns the new state and the
(recipient, payload) sends. -/
def handle_offer (st : SigState) (sender : String) (msg : Msg) :
    SigState × List (String × Msg) :=
  match lookupClient st sender with
  | none => (st, [])
  | some c =>
    if c.is_camera then
      let st2 := insertClient st sender { c with last_offer := msg.sdp }
      match msg.toId with
      | some t =>
        if t ≠ "" ∧ (lookupClient st2 t).isSome then (st2, [(t, msg)])
        else (st2, broadcastViewers st2 msg)
      | none => (st2, broadcastViewers st2 msg)
    else (st, [])

/-- Everything after the first colon of a character list, none when there
is no colon. -/
def afterFirstColon : List Char → Option (List Char)
  | [] => none
  | c :: cs => if c = ':' then some cs else afterFirstColon cs

/-- The part of the viewer id after the first colon, as the split with
maxsplit 1 in signaling_server.py line 57 computes it; none when the id
has no colon. -/
def splitUser (s : String) : Option String :=
  (afterFirstColon s.data).map (fun cs => String.mk cs)

/-- The connect handler, signaling_server.py lines 42-72: register the new
client (overwriting a stale entry with the same id); when the client is a
viewer whose id contains a colon, derive the peer id camera:user from it,
and if that peer is registered with a truthy (present, non-empty) stored
last_offer, immediately send the stored offer to the new viewer, labeled
as coming from the peer. -/
def on_connect (st : SigState) (client_id : String) : SigState × List (String × Msg) :=
  let c := ClientState.init client_id
  let st2 := insertClient st client_id c
  if c.is_camera then (st2, [])
  else
    match splitUser client_id with
    | none => (st2, [])
    | some user_part =>
      let peer := "camera:" ++ user_part
      match lookupClient st2 peer with
      | none => (st2, [])
      | some cam =>
        match cam.last_offer with
        | none => (st2, [])
        | some sdp =>
          if sdp = "" then (st2, [])
          else (st2, [(client_id,
            { type := some "offer", fromId := some peer,
              toId := some client_id, sdp := some sdp })])

/-! ## Proxy video track (src/app/streamer/sender_stream.py lines 64-133) -/

/-- A media frame as ProxyVideoTrack.recv handles it: presentation
timestamp, time base, and an uninterpreted pixel payload. -/
structure Frame where
  pts : Int
  tb_num : Int
  tb_den : Int
  data : Nat
deriving DecidableEq, Repr

/-- One call of ProxyVideoTrack.recv for the frame received from the
source, with the detector presence, the frame_skip setting and the current
value of the frame index: without a detector the source frame is returned
as is; a skipped index returns the source frame as is; otherwise the
annotated pixels are wrapped in a new frame whose pts and time_base are
copied from the source frame (lines 126-127). -/
def ProxyRecv (detector : Bool) (frame_skip : Nat) (annotate : Nat → Nat)
    (idx : Nat) (f : Frame) : Frame :=
  if detector = false then f
  else if frame_skip ≠ 0 ∧ idx % (frame_skip + 1) ≠ 0 then f
  else { f with data := annotate f.data }

/-- The sequence of frames the track emits for a sequence of source
frames, threading the frame index (which only advances when a detector is
set; without one ProxyRecv is the identity, so threading it uniformly is
harmless). -/
def ProxyRun (detector : Bool) (frame_skip : Nat) (annotate : Nat → Nat) :
    Nat → List Frame → List Frame
  | _, [] => []
  | idx, f :: fs =>
    ProxyRecv detector frame_skip annotate idx f ::
      ProxyRun detector frame_skip annotate (idx + 1) fs

/-! ## Derived notions used in the statements -/

/-- The effective count threshold the code computes: the or-expression
rule.min_count or 1 maps only the falsy values None and 0 to 1. -/
def effectiveMinCount (r : AgentRule) : Int :=
  match r.min_count with
  | none => 1
  | some m => if m = 0 then 1 else m

/-- Well-formedness of a channel whose bound is B: every subscriber queue
was created by subscribe on this channel (maxsize B, not broken) and holds
at most B items. -/
def ChanInv {F : Type} (B : Nat) (ch : CameraChannel F) : Prop :=
  ch.max_sub_queue = B ∧
    ∀ q ∈ ch.subscribers, q.maxsize = B ∧ q.broken = false ∧ q.items.length ≤ B

/-! ## Concrete inputs for the closed instantiations -/

/-- A detection of a person. -/
def personDet (n : Nat) : Detection := { class_name := some "person", payload := n }

/-- A detection of a car. -/
def carDet (n : Nat) : Detection := { class_name := some "car", payload := n }

/-- A count rule with a negative min_count. -/
def ruleNegCount : AgentRule :=
  { type := "class_count", target_class := "person", label := "neg",
    min_count := some (-1), action := none }

/-- A presence rule for persons. -/
def rulePresencePerson : AgentRule :=
  { type := "class_presence", target_class := "person", label := "p",
    min_count := none, action := none }

/-- A count rule for persons with threshold 2. -/
def ruleCountPerson2 : AgentRule :=
  { type := "class_count", target_class := "person", label := "c2",
    min_count := some 2, action := none }

/-- A rule whose type names no attribute of the rules module. -/
def ruleUnknownKind : AgentRule :=
  { type := "frobnicate", target_class := "person", label := "u",
    min_count := none, action := none }

/-- A rule whose type names the imported typing.List binding of the rules
module: getattr finds it and calling it raises TypeError. -/
def ruleListKind : AgentRule :=
  { type := "List", target_class := "person", label := "bad",
    min_count := none, action := none }

/-- A runtime whose only rule has the type List. -/
def runtimeListKind : AgentRuntime :=
  { agent_id := some "agent1", camera_id := "cam1", model := "yolov8n.pt",
    rules := [ruleListKind], fps := 5 }

/-- A rule whose type names the dunder module attribute __cached__, which
the import system stores in the module dict: getattr finds it (a string or
None, not a handler) and calling it raises TypeError. -/
def ruleCachedKind : AgentRule :=
  { type := "__cached__", target_class := "person", label := "bad2",
    min_count := none, action := none }

/-- A runtime whose only rule has the type __cached__. -/
def runtimeCachedKind : AgentRuntime :=
  { agent_id := some "agent1", camera_id := "cam1", model := "yolov8n.pt",
    rules := [ruleCachedKind], fps := 5 }

/-- A runtime mixing a presence rule, an unknown rule kind and a count
rule. -/
def runtimeMixed : AgentRuntime :=
  { agent_id := some "agent1", camera_id := "cam1", model := "yolov8n.pt",
    rules := [rulePresencePerson, ruleUnknownKind, ruleCountPerson2], fps := 5 }

/-- The detections of the worked example in the specification: person,
car, person, dog. -/
def detsExample : List Detection :=
  [personDet 1, carDet 2, personDet 3,
   { class_name := some "dog", payload := 4 }]

/-- A scheduled agent document inside its window. -/
def docScheduled : AgentDoc :=
  { agent_id := some "agent1", camera_id := some "cam1",
    model_ids := some ["yolov8n.pt"], run_mode := some "scheduled",
    status := some "pending", rules := [], fps := some 5,
    start_at := some 0, end_at := some 10 }

/-- A continuous-mode agent document whose window has already closed. -/
def docContinuous : AgentDoc :=
  { agent_id := some "agent1", camera_id := some "cam1",
    model_ids := some ["yolov8n.pt"], run_mode := some "continuous",
    status := some "running", rules := [], fps := some 5,
    start_at := some 0, end_at := some 10 }

/-- An agent document with no start_at and no end_at. -/
def docNoTimes : AgentDoc :=
  { agent_id := some "agent2", camera_id := some "cam1",
    model_ids := some ["yolov8n.pt"], run_mode := some "continuous",
    status := some "running", rules := [], fps := some 5,
    start_at := none, end_at := none }

/-- A running agent document whose agent_id field is absent. -/
def docNoAgentId : AgentDoc :=
  { agent_id := none, camera_id := some "cam1",
    model_ids := some ["yolov8n.pt"], run_mode := some "scheduled",
    status := some "running", rules := [], fps := some 5,
    start_at := some 0, end_at := some 100 }

/-- Two running agent documents with distinct agent ids. -/
def collTwoAgents : List AgentDoc :=
  [{ agent_id := some "agent1", camera_id := some "cam1",
     model_ids := some ["yolov8n.pt"], run_mode := some "scheduled",
     status := some "running", rules := [], fps := some 5,
     start_at := some 0, end_at := some 100 },
   { agent_id := some "agent2", camera_id := some "cam1",
     model_ids := some [], run_mode := some "scheduled",
     status := some "running", rules := [], fps := some 5,
     start_at := some 0, end_at := some 100 }]

/-- A full, healthy subscriber queue holding 1, 2, 3. -/
def qFullEx : SubQueue Nat := { items := [1, 2, 3], maxsize := 3, broken := false }

/-- A torn-down subscriber queue. -/
def qBrokenEx : SubQueue Nat := { items := [], maxsize := 3, broken := true }

/-- A channel with one healthy and one torn-down subscriber. -/
def chTwoSubs : CameraChannel Nat :=
  { camera_id := "cam1", last_frame := none,
    subscribers := [qFullEx, qBrokenEx], max_sub_queue := 3 }

/-- A signaling state with one camera and one connected viewer. -/
def sigStateTwo : SigState :=
  [("camera:u", ClientState.init "camera:u"),
   ("viewer:b", ClientState.init "viewer:b")]

/-- An offer from camera:u addressed to a viewer that is not connected. -/
def offerToAbsent : Msg :=
  { type := some "offer", fromId := some "camera:u",
    toId := some "viewer:a", sdp := some "sdpA" }

/-- A camera client that has already stored an offer. -/
def camWithOffer : ClientState :=
  { client_id := "camera:u", is_camera := true,
    last_offer := some "sdpStored", last_answer := none }

/-- A signaling state holding only that camera. -/
def sigStateCam : SigState := [("camera:u", camWithOffer)]

/-- Two source frames carrying the same presentation timestamp. -/
def framesRepeatedPts : List Frame :=
  [{ pts := 5, tb_num := 1, tb_den := 90000, data := 0 },
   { pts := 5, tb_num := 1, tb_den := 90000, data := 1 }]

/-! ## Scheduler status theorems -/

/-- The effective status a sweep leaves on a document carrying both times
is exactly the computed one, whether or not the stored value changed. -/
theorem sweepDoc_status (now s e : Nat) (d : AgentDoc)
    (hs : d.start_at = some s) (he : d.end_at = some e) :
    (sweepDoc now d).status.getD "pending" = computeNewStatus now s e := by
  unfold sweepDoc
  rw [hs, he]
  by_cases h : computeNewStatus now s e ≠ d.status.getD "pending"
  · simp [h]
  · push_neg at h
    simp [h]

/-- C1, counterexample: the scheduler ignores run_mode. The continuous
agent docContinuous, whose window has closed at instant 20, is swept to
status terminated, while the pure status function of the specification
yields running for run_mode continuous. -/
theorem C1_continuous_counterexample :
    docContinuous.run_mode = some "continuous" ∧
    (sweep 20 [docContinuous]).map AgentDoc.status = [some "terminated"] ∧
    specStatus "continuous" 20 0 10 = "running" ∧
    ("terminated" : String) ≠ "running" :=
  ⟨rfl, rfl, rfl, by decide⟩

/-- C1, amended: the status computed by a scheduler sweep is the pure
function of (now, start_at, end_at) alone - pending before start_at,
running inside the window, terminated from end_at on - for every value of
run_mode, which the sweep never consults; it agrees with the
specification status function restricted to scheduled mode. -/
theorem C1_status_ignores_run_mode (now s e : Nat) (d : AgentDoc)
    (hs : d.start_at = some s) (he : d.end_at = some e)
    (ht : d.status ≠ some "terminated") :
    (sweep now [d]).map (fun x => x.status.getD "pending") =
        [computeNewStatus now s e] ∧
    (∀ rm, (sweep now [{ d with run_mode := rm }]).map
        (fun x => x.status.getD "pending") = [computeNewStatus now s e]) ∧
    computeNewStatus now s e = specStatus "scheduled" now s e := by
  refine ⟨?_, ?_, ?_⟩
  · simp [sweep, ht, sweepDoc_status now s e d hs he]
  · intro rm
    have hs2 : ({ d with run_mode := rm } : AgentDoc).start_at = some s := hs
    have he2 : ({ d with run_mode := rm } : AgentDoc).end_at = some e := he
    have ht2 : ({ d with run_mode := rm } : AgentDoc).status ≠ some "terminated" := ht
    simp [sweep, ht2, sweepDoc_status now s e _ hs2 he2]
  · rw [specStatus, if_neg]
    · rfl
    · decide

/-- C1, witness: a scheduled agent inside its window is swept to status
running. -/
theorem C1_status_ignores_run_mode_witness :
    (sweep 5 [docScheduled]).map (fun x => x.status.getD "pending") =
      [computeNewStatus 5 0 10] :=
  (C1_status_ignores_run_mode 5 0 10 docScheduled rfl rfl (by decide)).1

/-- A document missing start_at or end_at is returned unchanged by the
per-document sweep body. -/
theorem sweepDoc_missing_times (now : Nat) (d : AgentDoc)
    (h : d.start_at = none ∨ d.end_at = none) : sweepDoc now d = d := by
  rcases hs : d.start_at with _ | s <;> rcases he : d.end_at with _ | e <;>
      unfold sweepDoc <;> rw [hs, he] <;> try rfl
  rcases h with h | h
  · rw [hs] at h; exact absurd h (by simp)
  · rw [he] at h; exact absurd h (by simp)

/-- C10: a stored agent document lacking start_at or end_at is skipped by
every sweep: after any sequence of sweeps at arbitrary instants the
document, its status included, is exactly what was written externally. -/
theorem C10_missing_times_never_touched (d : AgentDoc)
    (h : d.start_at = none ∨ d.end_at = none) (nows : List Nat) :
    nows.foldl (fun coll n => sweep n coll) [d] = [d] := by
  have hone : ∀ n, sweep n [d] = [d] := by
    intro n
    by_cases hterm : d.status = some "terminated"
    · simp [sweep, hterm]
    · simp [sweep, hterm, sweepDoc_missing_times n d h]
  induction nows with
  | nil => rfl
  | cons n ns ih => rw [List.foldl_cons, hone n]; exact ih

/-- C10, witness: three sweeps leave the timeless running document
docNoTimes untouched. -/
theorem C10_missing_times_never_touched_witness :
    [3, 9, 27].foldl (fun coll n => sweep n coll) [docNoTimes] = [docNoTimes] :=
  C10_missing_times_never_touched docNoTimes (Or.inl rfl) [3, 9, 27]

/-! ## Rule evaluation theorems -/

/-- C4, counterexample: for min_count equal to minus one and no
detections, class_count matches (0 is at least minus one), while the
claimed threshold max(min_count, 1) = 1 is not met. The Python
or-expression maps only None and 0 to 1, not negative values. -/
theorem C4_negative_min_count_counterexample :
    (class_count ruleNegCount []).1 = true ∧
    ¬ (max (ruleNegCount.min_count.getD 1) 1 ≤
        ((class_count ruleNegCount []).2.length : Int)) := by
  decide

/-- C4, amended: presence evidence is the class filter of the detections
in input order and matched holds iff it is non-empty; count returns the
same filter unconditionally and matched holds iff the count reaches the
effective threshold, which is 1 when min_count is absent or 0 but is the
stored value itself when negative - so a negative min_count always
matches. -/
theorem C4_rule_eval (r : AgentRule) (dets : List Detection) :
    (class_presence r dets).2 =
        dets.filter (fun d => decide (d.class_name = some r.target_class)) ∧
    ((class_presence r dets).1 = true ↔ (class_presence r dets).2 ≠ []) ∧
    (class_count r dets).2 =
        dets.filter (fun d => decide (d.class_name = some r.target_class)) ∧
    ((class_count r dets).1 = true ↔
        effectiveMinCount r ≤ ((class_count r dets).2.length : Int)) ∧
    (∀ m : Int, r.min_count = some m → m < 0 → (class_count r dets).1 = true) := by
  refine ⟨rfl, ?_, rfl, ?_, ?_⟩
  · simp [class_presence, List.length_pos]
  · simp [class_count, effectiveMinCount]
  · intro m hm hneg
    have hm0 : ¬ m = 0 := by omega
    simp [class_count, hm, hm0]
    calc m ≤ 0 := hneg.le
      _ ≤ _ := Int.natCast_nonneg _

/-- C4, witness: with one non-person detection and min_count minus one the
count rule matches. -/
theorem C4_rule_eval_witness :
    (class_count ruleNegCount [carDet 0]).1 = true :=
  (C4_rule_eval ruleNegCount [carDet 0]).2.2.2.2 (-1) rfl (by decide)

/-! ## Proxy track theorems -/

/-- One recv call copies pts and time base from the source frame. -/
theorem ProxyRecv_preserves (detector : Bool) (frame_skip : Nat)
    (annotate : Nat → Nat) (idx : Nat) (f : Frame) :
    (ProxyRecv detector frame_skip annotate idx f).pts = f.pts ∧
    (ProxyRecv detector frame_skip annotate idx f).tb_num = f.tb_num ∧
    (ProxyRecv detector frame_skip annotate idx f).tb_den = f.tb_den := by
  unfold ProxyRecv
  split
  · exact ⟨rfl, rfl, rfl⟩
  · split
    · exact ⟨rfl, rfl, rfl⟩
    · exact ⟨rfl, rfl, rfl⟩

/-- The emitted pts and time-base sequences equal those of the source. -/
theorem ProxyRun_map_pts (detector : Bool) (frame_skip : Nat)
    (annotate : Nat → Nat) (idx : Nat) (frames : List Frame) :
    (ProxyRun detector frame_skip annotate idx frames).map Frame.pts =
        frames.map Frame.pts ∧
    (ProxyRun detector frame_skip annotate idx frames).map
        (fun f => (f.tb_num, f.tb_den)) =
      frames.map (fun f => (f.tb_num, f.tb_den)) := by
  induction frames generalizing idx with
  | nil => exact ⟨rfl, rfl⟩
  | cons f fs ih =>
    have hr := ProxyRecv_preserves detector frame_skip annotate idx f
    have hi := ih (idx + 1)
    constructor <;> simp [ProxyRun, hr.1, hr.2.1, hr.2.2, hi.1, hi.2]

/-- C9, counterexample: with a detector active and no frame skip, a source
delivering the same pts twice makes the track emit pts 5 twice: the output
timestamps are exactly the upstream ones, so they are not freshly
assigned and not strictly increasing. -/
theorem C9_repeated_pts_counterexample :
    (ProxyRun true 0 (fun d => d + 100) 0 framesRepeatedPts).map Frame.pts =
        framesRepeatedPts.map Frame.pts ∧
    framesRepeatedPts.map Frame.pts = [5, 5] ∧
    ¬ List.Chain' (fun a b => a.pts < b.pts)
        (ProxyRun true 0 (fun d => d + 100) 0 framesRepeatedPts) := by
  refine ⟨rfl, rfl, ?_⟩
  intro hch
  rw [show ProxyRun true 0 (fun d => d + 100) 0 framesRepeatedPts =
      [{ pts := 5, tb_num := 1, tb_den := 90000, data := 100 },
       { pts := 5, tb_num := 1, tb_den := 90000, data := 101 }] from rfl] at hch
  exact absurd (List.chain'_cons.mp hch).1 (by decide)

/-- C9, amended: every frame the track emits carries the original pts of the
source frame and time base unchanged (recv copies them onto the annotated
frame and otherwise returns the source frame itself), so the emitted
timestamp sequence is strictly increasing exactly when the source one
is. -/
theorem C9_passthrough_timestamps (detector : Bool) (frame_skip : Nat)
    (annotate : Nat → Nat) (idx : Nat) (frames : List Frame) :
    (ProxyRun detector frame_skip annotate idx frames).map Frame.pts =
        frames.map Frame.pts ∧
    (ProxyRun detector frame_skip annotate idx frames).map
        (fun f => (f.tb_num, f.tb_den)) =
      frames.map (fun f => (f.tb_num, f.tb_den)) ∧
    (List.Chain' (fun a b => a.pts < b.pts)
        (ProxyRun detector frame_skip annotate idx frames) ↔
      List.Chain' (fun a b => a.pts < b.pts) frames) := by
  have hmap := ProxyRun_map_pts detector frame_skip annotate idx frames
  refine ⟨hmap.1, hmap.2, ?_⟩
  calc List.Chain' (fun a b => a.pts < b.pts)
        (ProxyRun detector frame_skip annotate idx frames)
      ↔ List.Chain' (fun a b : Int => a < b)
          ((ProxyRun detector frame_skip annotate idx frames).map Frame.pts) :=
        (List.chain'_map Frame.pts).symm
    _ ↔ List.Chain' (fun a b : Int => a < b) (frames.map Frame.pts) := by
        rw [hmap.1]
    _ ↔ List.Chain' (fun a b => a.pts < b.pts) frames := List.chain'_map Frame.pts

/-! ## Runtime construction: C8 counterexample -/

/-- C8, counterexample: a running document whose agent_id field is absent
is not skipped by the runtime builder; it yields a runtime whose agent_id
is none. -/
theorem C8_missing_id_not_skipped_counterexample :
    docNoAgentId.agent_id = none ∧
    build_agent_runtimes_for_camera [docNoAgentId] "cam1" =
      [{ agent_id := none, camera_id := "cam1", model := "yolov8n.pt",
         rules := [], fps := 5 }] :=
  ⟨rfl, rfl⟩

/-! ## Rule dispatch theorems -/

/-- Inner-loop characterization: as long as no rule type names a
non-callable module attribute, the loop returns ok, with any_match the
disjunction over the rules and kept the concatenated evidence of the
matched rules in declaration order. -/
theorem runRulesGo_ok (dets : List Detection) :
    ∀ (rules : List AgentRule),
      (∀ r ∈ rules, rulesModuleAttr r.type ≠ some RuleAttr.nonHandler) →
      ∀ (b : Bool) (kept : List Detection),
        runRulesGo dets rules b kept =
          .ok (b || rules.any (fun r => ruleMatched r dets),
               kept ++ keptAll rules dets) := by
  intro rules
  induction rules with
  | nil => intro h b kept; simp [runRulesGo, keptAll]
  | cons r rest ih =>
    intro h b kept
    have hr := h r (List.mem_cons_self r rest)
    have hrest : ∀ x ∈ rest, rulesModuleAttr x.type ≠ some RuleAttr.nonHandler :=
      fun x hx => h x (List.mem_cons_of_mem r hx)
    have hka : keptAll (r :: rest) dets = ruleKept r dets ++ keptAll rest dets := rfl
    match hattr : rulesModuleAttr r.type with
    | none =>
      rw [show runRulesGo dets (r :: rest) b kept = runRulesGo dets rest b kept by
            rw [runRulesGo, hattr],
          ih hrest b kept, hka]
      simp [ruleMatched, ruleKept, ruleHandlerResult, hattr]
    | some RuleAttr.nonHandler => exact absurd hattr hr
    | some RuleAttr.presence =>
      have hres : ruleHandlerResult r dets = some (class_presence r dets) := by
        rw [ruleHandlerResult, hattr]
      by_cases hm : (class_presence r dets).1 = true
      · rw [show runRulesGo dets (r :: rest) b kept =
              runRulesGo dets rest true (kept ++ (class_presence r dets).2) by
            rw [runRulesGo, hattr]; simp [hm],
          ih hrest true (kept ++ (class_presence r dets).2), hka]
        simp [ruleMatched, ruleKept, hres, hm]
      · rw [show runRulesGo dets (r :: rest) b kept = runRulesGo dets rest b kept by
              rw [runRulesGo, hattr]; simp [hm],
            ih hrest b kept, hka]
        simp [ruleMatched, ruleKept, hres, hm]
    | some RuleAttr.count =>
      have hres : ruleHandlerResult r dets = some (class_count r dets) := by
        rw [ruleHandlerResult, hattr]
      by_cases hm : (class_count r dets).1 = true
      · rw [show runRulesGo dets (r :: rest) b kept =
              runRulesGo dets rest true (kept ++ (class_count r dets).2) by
            rw [runRulesGo, hattr]; simp [hm],
          ih hrest true (kept ++ (class_count r dets).2), hka]
        simp [ruleMatched, ruleKept, hres, hm]
      · rw [show runRulesGo dets (r :: rest) b kept = runRulesGo dets rest b kept by
              rw [runRulesGo, hattr]; simp [hm],
            ih hrest b kept, hka]
        simp [ruleMatched, ruleKept, hres, hm]

/-- C5, counterexample: a rule whose type is the string List is looked up
successfully by getattr (it names the imported typing.List binding of the
rules module), and calling it raises a TypeError that propagates out of
run_rules_for_agent; the same happens for dunder-shaped kinds that getattr
resolves on the module object, such as __cached__ from the module dict or
__class__ from the module type. The aggregate evaluation is not total over
arbitrary rule kind strings and such rules are not skipped. -/
theorem C5_nonhandler_kind_counterexample :
    run_rules_for_agent runtimeListKind [] =
      .error "TypeError: module attribute is not a rule handler" ∧
    run_rules_for_agent runtimeCachedKind [] =
      .error "TypeError: module attribute is not a rule handler" ∧
    rulesModuleAttr "List" = some RuleAttr.nonHandler ∧
    rulesModuleAttr "__cached__" = some RuleAttr.nonHandler ∧
    rulesModuleAttr "__class__" = some RuleAttr.nonHandler ∧
    rulesModuleAttr "__dir__" = some RuleAttr.nonHandler ∧
    rulesModuleAttr "__eq__" = some RuleAttr.nonHandler :=
  ⟨rfl, rfl, rfl, rfl, rfl, rfl, rfl⟩

/-- C5, amended: provided no rule type resolves to a non-handler attribute
of the rules module (neither one of its five non-handler top-level
bindings nor any dunder-shaped attribute name), the aggregate evaluation
never raises; a rule type that getattr resolves to no attribute at all is
skipped with a diagnostic and every remaining rule is still evaluated;
kept is the concatenation, in rule declaration order, of the evidence of
exactly the matched rules, without de-duplication, and any_matched holds
iff at least one rule matched. -/
theorem C5_run_rules_ok (runtime : AgentRuntime) (dets : List Detection)
    (h : ∀ r ∈ runtime.rules, rulesModuleAttr r.type ≠ some RuleAttr.nonHandler) :
    run_rules_for_agent runtime dets =
      .ok (runtime.rules.any (fun r => ruleMatched r dets),
           keptAll runtime.rules dets) := by
  rw [run_rules_for_agent, runRulesGo_ok dets runtime.rules h false []]
  simp

/-- C5, witness: a presence rule, an unknown kind and a count rule over
the person-car-person-dog detections: evaluation succeeds, the unknown
kind is skipped, and kept is the evidence of the two matched rules
concatenated. -/
theorem C5_run_rules_ok_witness :
    run_rules_for_agent runtimeMixed detsExample =
      .ok (true, [personDet 1, personDet 3, personDet 1, personDet 3]) :=
  (C5_run_rules_ok runtimeMixed detsExample (by decide)).trans rfl

/-! ## C8: what the scheduler and the runtime builder actually maintain -/

/-- The per-document sweep body either leaves the document unchanged or
replaces exactly its status field. -/
theorem sweepDoc_shape (now : Nat) (d : AgentDoc) :
    sweepDoc now d = d ∨ ∃ ns, sweepDoc now d = { d with status := some ns } := by
  rcases hs : d.start_at with _ | s
  · left
    unfold sweepDoc
    rw [hs]
  · rcases he : d.end_at with _ | e
    · left
      unfold sweepDoc
      rw [hs, he]
    · by_cases hch : computeNewStatus now s e ≠ d.status.getD "pending"
      · right
        refine ⟨computeNewStatus now s e, ?_⟩
        unfold sweepDoc
        rw [hs, he]
        exact if_pos hch
      · left
        unfold sweepDoc
        rw [hs, he]
        exact if_neg hch

/-- The agent ids of the built runtimes form a sublist of the agent ids of
the documents they were built from. -/
theorem build_ids_sublist (camera_id : String) :
    ∀ (l : List AgentDoc),
      ((l.filterMap (mkRuntimeForCamera camera_id)).map AgentRuntime.agent_id).Sublist
        (l.map AgentDoc.agent_id) := by
  intro l
  induction l with
  | nil => simp
  | cons d rest ih =>
    match hmk : mkRuntimeForCamera camera_id d with
    | none =>
      rw [List.filterMap_cons, hmk, List.map_cons]
      exact ih.cons _
    | some rt =>
      have hid : rt.agent_id = d.agent_id := by
        rcases hm : d.model_ids.getD [] with _ | ⟨m, ms⟩ <;>
            rw [mkRuntimeForCamera, hm] at hmk
        · cases hmk
        · cases hmk; rfl
      rw [List.filterMap_cons, hmk, List.map_cons, List.map_cons, hid]
      exact ih.cons₂ _

/-- C8, amended: the sweep itself manages no tasks - its entire effect is
elementwise and touches only the status field of each stored document;
runtimes are rebuilt per frame by build_agent_runtimes_for_camera, which
silently skips a document with an absent or empty model_ids list, and
which yields at most one runtime per agent_id whenever the queried
documents carry pairwise distinct agent ids (a missing agent_id is not
checked and flows into the runtime). -/
theorem C8_sweep_status_only_and_unique_runtimes (coll : List AgentDoc)
    (camera_id : String) (now : Nat)
    (h : ((queryRunning coll camera_id).map AgentDoc.agent_id).Nodup) :
    ((build_agent_runtimes_for_camera coll camera_id).map AgentRuntime.agent_id).Nodup ∧
    (sweep now coll).length = coll.length ∧
    (∀ (i : Nat) (d : AgentDoc), coll[i]? = some d →
        ∃ d2, (sweep now coll)[i]? = some d2 ∧ d2 = { d with status := d2.status }) ∧
    (∀ d, d.model_ids.getD [] = [] →
        build_agent_runtimes_for_camera [d] camera_id = []) := by
  refine ⟨?_, ?_, ?_, ?_⟩
  · exact (build_ids_sublist camera_id (queryRunning coll camera_id)).nodup h
  · simp [sweep]
  · intro i d hd
    refine ⟨if d.status = some "terminated" then d else sweepDoc now d, ?_, ?_⟩
    · rw [sweep, List.getElem?_map, hd]; rfl
    · by_cases hterm : d.status = some "terminated"
      · rw [if_pos hterm]
      · rw [if_neg hterm]
        rcases sweepDoc_shape now d with hsh | ⟨ns, hsh⟩ <;> rw [hsh]
  · intro d hm
    by_cases hp : d.camera_id = some camera_id ∧ d.status = some "running"
    · simp [build_agent_runtimes_for_camera, queryRunning, hp, mkRuntimeForCamera, hm]
    · simp [build_agent_runtimes_for_camera, queryRunning, hp]

/-- C8, witness: two running documents with distinct ids yield runtimes
with pairwise distinct ids. -/
theorem C8_sweep_status_only_witness :
    ((build_agent_runtimes_for_camera collTwoAgents "cam1").map
        AgentRuntime.agent_id).Nodup :=
  (C8_sweep_status_only_and_unique_runtimes collTwoAgents "cam1" 0 (by decide)).1

/-! ## Frame hub theorems -/

/-- C2: publish stores the frame as latest; every healthy current
subscriber gets the frame appended to its queue, with the oldest entry
evicted first exactly when the queue was full; every subscriber whose
operations raise is removed, so all queues of the post state are healthy
and end with the published frame. The embedding of publish is a total
function: the publisher never blocks and never raises. -/
theorem C2_publish_delivery (F : Type) (ch : CameraChannel F) (f : F) :
    (ch.publish f).last_frame = some f ∧
    (∀ q ∈ ch.subscribers, q.broken = false →
        publishToQueue f q ∈ (ch.publish f).subscribers ∧
        (publishToQueue f q).items.getLast? = some f ∧
        (q.isFull = true → (publishToQueue f q).items = q.items.drop 1 ++ [f]) ∧
        (q.isFull = false → (publishToQueue f q).items = q.items ++ [f])) ∧
    (∀ q2 ∈ (ch.publish f).subscribers, q2.broken = false ∧
        q2.items.getLast? = some f) ∧
    (ch.publish f).subscribers.length =
      (ch.subscribers.filter (fun q => !q.broken)).length := by
  refine ⟨rfl, ?_, ?_, by simp [CameraChannel.publish]⟩
  · intro q hq hb
    refine ⟨?_, ?_, ?_, ?_⟩
    · exact List.mem_map_of_mem _ (List.mem_filter.mpr ⟨hq, by simp [hb]⟩)
    · simp [publishToQueue]
    · intro hful; simp [publishToQueue, hful]
    · intro hful; simp [publishToQueue, hful]
  · intro q2 hq2
    simp only [CameraChannel.publish] at hq2
    obtain ⟨q, hqf, rfl⟩ := List.mem_map.mp hq2
    have hb : q.broken = false := by
      have := (List.mem_filter.mp hqf).2
      simpa using this
    exact ⟨hb, by simp [publishToQueue]⟩

/-- C2, witness: publishing 9 on a channel with one full healthy queue and
one torn-down queue delivers 9 to the healthy queue with its oldest entry
evicted. -/
theorem C2_publish_delivery_witness :
    (chTwoSubs.publish 9).last_frame = some 9 ∧
    publishToQueue 9 qFullEx ∈ (chTwoSubs.publish 9).subscribers ∧
    (publishToQueue 9 qFullEx).items = qFullEx.items.drop 1 ++ [9] := by
  have h := C2_publish_delivery Nat chTwoSubs 9
  have h2 := h.2.1 qFullEx (by decide) rfl
  exact ⟨h.1, h2.1, h2.2.2.1 (by decide)⟩

/-- Enqueueing with eviction keeps the length bound. -/
theorem publishToQueue_length (F : Type) (B : Nat) (hB : 0 < B) (f : F)
    (q : SubQueue F) (hm : q.maxsize = B) (hl : q.items.length ≤ B) :
    (publishToQueue f q).items.length ≤ B := by
  by_cases hful : q.isFull = true
  · have h2 : q.maxsize ≠ 0 ∧ q.maxsize ≤ q.items.length := by
      simpa [SubQueue.isFull] using hful
    have hstep : (publishToQueue f q).items = q.items.drop 1 ++ [f] := by
      simp [publishToQueue, hful]
    rw [hstep]
    simp only [List.length_append, List.length_drop, List.length_cons,
      List.length_nil]
    omega
  · have h2 : ¬ (q.maxsize ≠ 0 ∧ q.maxsize ≤ q.items.length) := by
      simpa [SubQueue.isFull] using hful
    have hlt : q.items.length < B := by
      rw [hm] at h2
      by_contra hcon
      push_neg at hcon
      exact h2 ⟨by omega, by omega⟩
    have hstep : (publishToQueue f q).items = q.items ++ [f] := by
      simp [publishToQueue, hful]
    rw [hstep]
    simp only [List.length_append, List.length_cons, List.length_nil]
    omega

/-- The channel invariant is preserved by one hub operation. -/
theorem chanInv_applyOp (F : Type) (B : Nat) (hB : 0 < B) (ch : CameraChannel F)
    (hch : ChanInv B ch) (op : HubOp F) : ChanInv B (applyOp ch op) := by
  rcases op with f | _
  · refine ⟨hch.1, ?_⟩
    intro q2 hq2
    simp only [applyOp, CameraChannel.publish] at hq2
    obtain ⟨q, hqf, rfl⟩ := List.mem_map.mp hq2
    obtain ⟨hqm, hqnb⟩ := List.mem_filter.mp hqf
    obtain ⟨h1, h2, h3⟩ := hch.2 q hqm
    exact ⟨h1, by simpa [publishToQueue] using h2,
      publishToQueue_length F B hB f q h1 h3⟩
  · refine ⟨hch.1, ?_⟩
    intro q hq
    simp only [applyOp, CameraChannel.subscribe] at hq
    rw [List.mem_append] at hq
    rcases hq with hq | hq
    · exact hch.2 q hq
    · rcases hlf : ch.last_frame with _ | f0 <;> rw [hlf] at hq <;> simp at hq
      · rw [hq]
        exact ⟨hch.1, rfl, by simp⟩
      · split at hq <;> rw [hq]
        · exact ⟨hch.1, rfl, by simp⟩
        · exact ⟨hch.1, rfl, by
            simp only [List.length_cons, List.length_nil]
            omega⟩

/-- A fresh channel satisfies the invariant. -/
theorem chanInv_init (F : Type) (cid : String) (B : Nat) :
    ChanInv B (CameraChannel.init F cid B) :=
  ⟨rfl, fun q hq => absurd hq (List.not_mem_nil q)⟩

/-- The channel invariant is preserved by any operation sequence. -/
theorem chanInv_applyOps (F : Type) (B : Nat) (hB : 0 < B) (ops : List (HubOp F)) :
    ∀ (ch : CameraChannel F), ChanInv B ch → ChanInv B (applyOps ch ops) := by
  induction ops with
  | nil => intro ch h; exact h
  | cons op ops ih => intro ch h; exact ih _ (chanInv_applyOp F B hB ch h op)

/-- Publishing on a channel whose subscribers are all healthy removes none
of them and updates each in place. -/
theorem publish_subscribers_all_healthy (F : Type) (ch : CameraChannel F) (f : F)
    (h : ∀ q ∈ ch.subscribers, q.broken = false) :
    (ch.publish f).subscribers = ch.subscribers.map (publishToQueue f) := by
  simp only [CameraChannel.publish]
  rw [List.filter_eq_self.mpr]
  intro q hq
  simp [h q hq]

/-- Folding a publish sequence over a healthy channel folds each
subscriber queue independently. -/
theorem applyOps_publishMap (F : Type) (fs : List F) :
    ∀ (ch : CameraChannel F), (∀ q ∈ ch.subscribers, q.broken = false) →
      (applyOps ch (fs.map HubOp.publish)).subscribers =
        ch.subscribers.map (fun q => fs.foldl (fun qq g => publishToQueue g qq) q) := by
  induction fs with
  | nil => intro ch h; simp [applyOps]
  | cons f fs ih =>
    intro ch h
    have hpub : ∀ q ∈ (ch.publish f).subscribers, q.broken = false := by
      intro q hq
      simp only [CameraChannel.publish] at hq
      obtain ⟨q0, hq0, rfl⟩ := List.mem_map.mp hq
      have := (List.mem_filter.mp hq0).2
      simpa [publishToQueue] using this
    have step : applyOps ch ((f :: fs).map HubOp.publish) =
        applyOps (ch.publish f) (fs.map HubOp.publish) := rfl
    rw [step, ih (ch.publish f) hpub,
      publish_subscribers_all_healthy F ch f h, List.map_map]
    rfl

/-- Dropping past a leading list. -/
theorem dropAppendAdd (F : Type) (l m : List F) (k : Nat) :
    (l ++ m).drop (l.length + k) = m.drop k := by
  induction l with
  | nil => simp
  | cons a l ih => simpa [Nat.succ_add] using ih

/-- Folding a publish sequence into one bounded healthy queue keeps
exactly the tail that fits of old content followed by the new frames. -/
theorem foldPublish_items (F : Type) (B : Nat) (hB : 0 < B) :
    ∀ (fs : List F) (q : SubQueue F), q.maxsize = B → q.items.length ≤ B →
      (fs.foldl (fun qq g => publishToQueue g qq) q).items =
        (q.items ++ fs).drop (q.items.length + fs.length - B) := by
  intro fs
  induction fs with
  | nil =>
    intro q hm hl
    simp [Nat.sub_eq_zero_of_le hl]
  | cons f fs ih =>
    intro q hm hl
    by_cases hful : q.isFull = true
    · have h2 : q.maxsize ≠ 0 ∧ q.maxsize ≤ q.items.length := by
        simpa [SubQueue.isFull] using hful
      have hlen : q.items.length = B := by omega
      have hstep : (publishToQueue f q).items = q.items.drop 1 ++ [f] := by
        simp [publishToQueue, hful]
      have hl2 : (publishToQueue f q).items.length ≤ B := by
        rw [hstep]
        simp only [List.length_append, List.length_drop, List.length_cons,
          List.length_nil]
        omega
      rw [List.foldl_cons, ih (publishToQueue f q) hm hl2, hstep]
      have hlen2 : (q.items.drop 1 ++ [f]).length = B := by
        simp only [List.length_append, List.length_drop, List.length_cons,
          List.length_nil]
        omega
      rw [hlen2, hlen]
      have hn1 : B + fs.length - B = fs.length := by omega
      have hn2 : B + (f :: fs).length - B = fs.length + 1 := by
        simp only [List.length_cons]
        omega
      rw [hn1, hn2]
      have h1le : 1 ≤ q.items.length := by omega
      calc ((q.items.drop 1 ++ [f]) ++ fs).drop fs.length
          = (q.items.drop 1 ++ (f :: fs)).drop fs.length := by
            rw [List.append_assoc]
            rfl
        _ = ((q.items ++ (f :: fs)).drop 1).drop fs.length := by
            rw [List.drop_append_of_le_length h1le]
        _ = (q.items ++ f :: fs).drop (1 + fs.length) := by rw [List.drop_drop]
        _ = (q.items ++ f :: fs).drop (fs.length + 1) := by rw [Nat.add_comm]
    · have h2 : ¬ (q.maxsize ≠ 0 ∧ q.maxsize ≤ q.items.length) := by
        simpa [SubQueue.isFull] using hful
      have hlt : q.items.length < B := by
        rw [hm] at h2
        by_contra hcon
        push_neg at hcon
        exact h2 ⟨by omega, by omega⟩
      have hstep : (publishToQueue f q).items = q.items ++ [f] := by
        simp [publishToQueue, hful]
      have hl2 : (publishToQueue f q).items.length ≤ B := by
        rw [hstep]
        simp only [List.length_append, List.length_cons, List.length_nil]
        omega
      rw [List.foldl_cons, ih (publishToQueue f q) hm hl2, hstep]
      rw [List.append_assoc]
      have hcons : ([f] ++ fs) = f :: fs := rfl
      rw [hcons]
      congr 1
      simp only [List.length_append, List.length_cons, List.length_nil]
      omega

/-- C3: starting from a fresh channel with bound B, after any sequence of
subscribe and publish operations no subscriber queue ever holds more than
B items; and once at least B further frames are published, every
subscriber queue holds exactly the last B published frames in publish
order. -/
theorem C3_bound_and_drained_content (F : Type) (cid : String) (B : Nat)
    (ops : List (HubOp F)) (fs : List F) (hB : 0 < B) (hfs : B ≤ fs.length) :
    (∀ q ∈ (applyOps (CameraChannel.init F cid B) ops).subscribers,
        q.items.length ≤ B) ∧
    (∀ q ∈ (applyOps (CameraChannel.init F cid B)
          (ops ++ fs.map HubOp.publish)).subscribers,
        q.items = fs.drop (fs.length - B)) := by
  have hinv : ChanInv B (applyOps (CameraChannel.init F cid B) ops) :=
    chanInv_applyOps F B hB ops _ (chanInv_init F cid B)
  constructor
  · intro q hq
    exact (hinv.2 q hq).2.2
  · intro q hq
    have happ : applyOps (CameraChannel.init F cid B) (ops ++ fs.map HubOp.publish) =
        applyOps (applyOps (CameraChannel.init F cid B) ops) (fs.map HubOp.publish) := by
      simp [applyOps, List.foldl_append]
    rw [happ, applyOps_publishMap F fs _ (fun q2 hq2 => (hinv.2 q2 hq2).2.1)] at hq
    obtain ⟨q0, hq0, rfl⟩ := List.mem_map.mp hq
    obtain ⟨hm0, hb0, hl0⟩ := hinv.2 q0 hq0
    rw [foldPublish_items F B hB fs q0 hm0 hl0]
    have h1 : q0.items.length + fs.length - B = q0.items.length + (fs.length - B) := by
      omega
    rw [h1, dropAppendAdd]

/-- C3, witness: with bound 3, one subscriber and the publishes 1, 2, 3, 4
the queue stays within bound and drains to the last three frames. -/
theorem C3_bound_and_drained_content_witness :
    ({ items := [], maxsize := 3, broken := false } : SubQueue Nat).items.length ≤ 3 ∧
    ({ items := [2, 3, 4], maxsize := 3, broken := false } : SubQueue Nat).items =
      [2, 3, 4] := by
  have h := C3_bound_and_drained_content Nat "cam1" 3 [HubOp.subscribe] [1, 2, 3, 4]
    (by decide) (by decide)
  exact ⟨h.1 _ (by decide), h.2 _ (by decide)⟩

/-! ## Signaling relay theorems -/

/-- Unfolding dict lookup over a cons cell. -/
theorem lookupClient_cons (x : String × ClientState) (rest : SigState)
    (cid2 : String) :
    lookupClient (x :: rest) cid2 =
      if x.1 = cid2 then some x.2 else lookupClient rest cid2 := by
  by_cases hx : x.1 = cid2 <;> simp [lookupClient, List.find?, hx]

/-- Updating the entry of one key does not change the lookup of another
key. -/
theorem lookup_map_update_ne (st : SigState) (cid cid2 : String)
    (c : ClientState) (h : cid2 ≠ cid) :
    lookupClient (st.map (fun p => if p.1 = cid then (cid, c) else p)) cid2 =
      lookupClient st cid2 := by
  induction st with
  | nil => rfl
  | cons p rest ih =>
    rw [List.map_cons, lookupClient_cons, lookupClient_cons]
    by_cases hp : p.1 = cid
    · rw [if_pos hp]
      have h1 : ((cid, c) : String × ClientState).1 = cid2 ↔ False := by
        simp
        exact fun heq => h heq.symm
      have h2 : p.1 = cid2 ↔ False := by
        simp
        rw [hp]
        exact fun heq => h heq.symm
      simp only [h1, h2, if_false, ih]
    · rw [if_neg hp]
      by_cases hp2 : p.1 = cid2
      · simp only [hp2, if_true]
      · simp only [hp2, if_false, ih]

/-- Appending a fresh entry for one key does not change the lookup of
another key. -/
theorem lookup_append_single_ne (st : SigState) (cid cid2 : String)
    (c : ClientState) (h : cid2 ≠ cid) :
    lookupClient (st ++ [(cid, c)]) cid2 = lookupClient st cid2 := by
  induction st with
  | nil =>
    rw [List.nil_append, lookupClient_cons, if_neg]
    exact fun heq => h heq.symm
  | cons p rest ih =>
    rw [List.cons_append, lookupClient_cons, lookupClient_cons, ih]

/-- Inserting a client leaves lookups of every other id unchanged. -/
theorem lookupClient_insertClient_ne (st : SigState) (cid cid2 : String)
    (c : ClientState) (h : cid2 ≠ cid) :
    lookupClient (insertClient st cid c) cid2 = lookupClient st cid2 := by
  rw [insertClient]
  split
  · exact lookup_map_update_ne st cid cid2 c h
  · exact lookup_append_single_ne st cid cid2 c h

/-- An id built as camera: followed by a user part starts with camera. -/
theorem pyStartsWith_camera_append (u : String) :
    pyStartsWith ("camera:" ++ u) "camera" = true := by
  simp [pyStartsWith, String.data_append, List.isPrefixOf]

/-- C6, counterexample: with camera:u and viewer:b connected, an offer
from camera:u addressed to the absent viewer:a is not dropped: it is
broadcast, and viewer:b receives it. -/
theorem C6_offer_broadcast_counterexample :
    (handle_offer sigStateTwo "camera:u" offerToAbsent).2 =
      [("viewer:b", offerToAbsent)] ∧
    lookupClient sigStateTwo "viewer:a" = none := by
  constructor <;> rfl

/-- C6, amended: an offer from a connected camera-role sender always
stores the message sdp as the last_offer of that sender; when the target field is present,
non-empty and names a connected client, the message is forwarded verbatim
to that client alone; otherwise (target absent, empty, or not currently
connected) the message is broadcast verbatim to every connected
viewer-role client instead of being dropped; every payload ever sent is
the original message. -/
theorem C6_offer_routing (st : SigState) (sender : String) (msg : Msg)
    (c : ClientState) (hc : lookupClient st sender = some c)
    (hcam : c.is_camera = true) :
    (handle_offer st sender msg).1 =
      insertClient st sender { c with last_offer := msg.sdp } ∧
    (∀ t, msg.toId = some t → t ≠ "" →
        (lookupClient (insertClient st sender { c with last_offer := msg.sdp })
            t).isSome →
        (handle_offer st sender msg).2 = [(t, msg)]) ∧
    ((msg.toId = none ∨ msg.toId = some "" ∨
        (∃ t, msg.toId = some t ∧
          lookupClient (insertClient st sender { c with last_offer := msg.sdp })
              t = none)) →
      (handle_offer st sender msg).2 =
        broadcastViewers (insertClient st sender { c with last_offer := msg.sdp })
          msg) ∧
    (∀ p ∈ (handle_offer st sender msg).2, p.2 = msg) := by
  have hN : msg.toId = none → handle_offer st sender msg =
      (insertClient st sender { c with last_offer := msg.sdp },
       broadcastViewers (insertClient st sender { c with last_offer := msg.sdp })
         msg) := by
    intro ht
    unfold handle_offer
    rw [hc]
    simp [hcam, ht]
  have hS : ∀ t, msg.toId = some t → handle_offer st sender msg =
      (if t ≠ "" ∧ (lookupClient
            (insertClient st sender { c with last_offer := msg.sdp }) t).isSome
       then (insertClient st sender { c with last_offer := msg.sdp }, [(t, msg)])
       else (insertClient st sender { c with last_offer := msg.sdp },
             broadcastViewers
               (insertClient st sender { c with last_offer := msg.sdp }) msg)) := by
    intro t ht
    unfold handle_offer
    rw [hc]
    simp [hcam, ht]
  refine ⟨?_, ?_, ?_, ?_⟩
  · rcases hto : msg.toId with _ | t
    · rw [hN hto]
    · rw [hS t hto]
      by_cases hcond : (t ≠ "" ∧ (lookupClient
          (insertClient st sender { c with last_offer := msg.sdp }) t).isSome)
      · rw [if_pos hcond]
      · rw [if_neg hcond]
  · intro t ht hne hsome
    rw [hS t ht, if_pos ⟨hne, hsome⟩]
  · intro hcase
    rcases hcase with h0 | h0 | ⟨t, ht, hnone⟩
    · rw [hN h0]
    · rw [hS "" h0, if_neg]
      intro hcon
      exact hcon.1 rfl
    · rw [hS t ht, if_neg]
      intro hcon
      rw [hnone] at hcon
      exact absurd hcon.2 (by simp)
  · intro p hp
    rcases hto : msg.toId with _ | t
    · rw [hN hto] at hp
      simp only [broadcastViewers] at hp
      obtain ⟨x, hx, rfl⟩ := List.mem_map.mp hp
      rfl
    · rw [hS t hto] at hp
      by_cases hcond : (t ≠ "" ∧ (lookupClient
          (insertClient st sender { c with last_offer := msg.sdp }) t).isSome)
      · rw [if_pos hcond] at hp
        simp only [List.mem_singleton] at hp
        rw [hp]
      · rw [if_neg hcond] at hp
        simp only [broadcastViewers] at hp
        obtain ⟨x, hx, rfl⟩ := List.mem_map.mp hp
        rfl

/-- C6, witness: the offer to an absent viewer still stores its sdp as the
last_offer of the sender. -/
theorem C6_offer_routing_witness :
    (handle_offer sigStateTwo "camera:u" offerToAbsent).1 =
      insertClient sigStateTwo "camera:u"
        { ClientState.init "camera:u" with last_offer := offerToAbsent.sdp } :=
  (C6_offer_routing sigStateTwo "camera:u" offerToAbsent
    (ClientState.init "camera:u") rfl rfl).1

/-- C7: when a viewer-role client connects, its entry is registered; if
its id contains a colon and the publisher derived as camera:user is
already registered with a present, non-empty stored offer, exactly one
message is sent on connect: the stored offer to the new viewer, labeled as
coming from the derived publisher; in every other case (no colon in the
id, publisher not connected, no stored offer, or an empty stored offer)
nothing is sent on connect. -/
theorem C7_replay_on_connect (st : SigState) (cid : String)
    (hv : pyStartsWith cid "camera" = false) :
    (on_connect st cid).1 = insertClient st cid (ClientState.init cid) ∧
    (∀ user cam sdp, splitUser cid = some user →
        lookupClient st ("camera:" ++ user) = some cam →
        cam.last_offer = some sdp → sdp ≠ "" →
        (on_connect st cid).2 =
          [(cid, { type := some "offer", fromId := some ("camera:" ++ user),
                   toId := some cid, sdp := some sdp })]) ∧
    ((splitUser cid = none ∨
        (∃ user, splitUser cid = some user ∧
          lookupClient st ("camera:" ++ user) = none) ∨
        (∃ user cam, splitUser cid = some user ∧
          lookupClient st ("camera:" ++ user) = some cam ∧
          (cam.last_offer = none ∨ cam.last_offer = some ""))) →
      (on_connect st cid).2 = []) := by
  have hic : (ClientState.init cid).is_camera = false := hv
  have hlook : ∀ user, lookupClient (insertClient st cid (ClientState.init cid))
      ("camera:" ++ user) = lookupClient st ("camera:" ++ user) := by
    intro user
    apply lookupClient_insertClient_ne
    intro heq
    have hpw := pyStartsWith_camera_append user
    rw [heq, hv] at hpw
    cases hpw
  have hA : splitUser cid = none →
      on_connect st cid = (insertClient st cid (ClientState.init cid), []) := by
    intro hsp
    unfold on_connect
    simp [hic, hsp]
  have hB : ∀ user, splitUser cid = some user →
      lookupClient st ("camera:" ++ user) = none →
      on_connect st cid = (insertClient st cid (ClientState.init cid), []) := by
    intro user hsp hlk
    unfold on_connect
    simp [hic, hsp, hlook, hlk]
  have hC : ∀ user cam, splitUser cid = some user →
      lookupClient st ("camera:" ++ user) = some cam → cam.last_offer = none →
      on_connect st cid = (insertClient st cid (ClientState.init cid), []) := by
    intro user cam hsp hlk hlo
    unfold on_connect
    simp [hic, hsp, hlook, hlk, hlo]
  have hD : ∀ user cam sdp, splitUser cid = some user →
      lookupClient st ("camera:" ++ user) = some cam → cam.last_offer = some sdp →
      on_connect st cid =
        (if sdp = "" then (insertClient st cid (ClientState.init cid), [])
         else (insertClient st cid (ClientState.init cid),
           [(cid, { type := some "offer", fromId := some ("camera:" ++ user),
                    toId := some cid, sdp := some sdp })])) := by
    intro user cam sdp hsp hlk hlo
    unfold on_connect
    simp [hic, hsp, hlook, hlk, hlo]
  refine ⟨?_, ?_, ?_⟩
  · rcases hsp : splitUser cid with _ | user
    · rw [hA hsp]
    · rcases hlk : lookupClient st ("camera:" ++ user) with _ | cam
      · rw [hB user hsp hlk]
      · rcases hlo : cam.last_offer with _ | sdp
        · rw [hC user cam hsp hlk hlo]
        · rw [hD user cam sdp hsp hlk hlo]
          by_cases hsd : sdp = ""
          · rw [if_pos hsd]
          · rw [if_neg hsd]
  · intro user cam sdp hsp hlk hlo hne
    rw [hD user cam sdp hsp hlk hlo, if_neg hne]
  · intro hcase
    rcases hcase with h0 | ⟨user, hsp, hlk⟩ | ⟨user, cam, hsp, hlk, hlo⟩
    · rw [hA h0]
    · rw [hB user hsp hlk]
    · rcases hlo with hlo | hlo
      · rw [hC user cam hsp hlk hlo]
      · rw [hD user cam "" hsp hlk hlo, if_pos rfl]

/-- C7, witness: viewer:u connecting while camera:u has a stored offer
receives exactly that offer, labeled as coming from camera:u. -/
theorem C7_replay_on_connect_witness :
    (on_connect sigStateCam "viewer:u").2 =
      [("viewer:u", { type := some "offer", fromId := some ("camera:" ++ "u"),
                      toId := some "viewer:u", sdp := some "sdpStored" })] :=
  (C7_replay_on_connect sigStateCam "viewer:u" (by decide)).2.1 "u" camWithOffer
    "sdpStored" rfl rfl rfl (by decide)

end VisionCore
